import Mathlib

/-!
Verification development for the gitsync repository (package gitsync and its
worker/synchronizer core).  The Go source is shallowly embedded: the worker
state, its variadic construction options, and the CloneOrPull reconciliation
algorithm (worker.go), the remote/branch reconciliation helpers, the recovery
deletion routine over a small file-system model, and the package-level
one-shot entry points (func.go).  The VCS backend (go-git) is modelled as a
behaviour record supplying the outcome of each backend call; CloneOrPull is a
function of the worker and a behaviour, returning the outcome together with a
record of the backend calls it performed.
-/

namespace Gitsync

/-- plumbing.ReferenceName: a fully qualified git reference name. -/
abbrev ReferenceName := String

/-- plumbing.ReferenceName.Short for local branch references: strips the
"refs/heads/" prefix (the only namespace the worker ever constructs),
computed on the underlying character list. -/
def shortName (r : ReferenceName) : String :=
  if List.isPrefixOf (String.data ("refs/heads/")) (String.data r) then
    String.mk (List.drop 11 (String.data r))
  else r

/-- plumbing.Reference as used by the worker: only Name() is consumed. -/
structure Reference where
  Name : ReferenceName
deriving DecidableEq, Repr

/-- sideband.Progress: an opaque text sink.  Identity is what the embedding
tracks; stdout is the distinguished sink os.Stdout. -/
inductive Sink
  | stdout
  | handle (n : Nat)
deriving DecidableEq, Repr

/-- transport.AuthMethod is opaque and passed through unexamined. -/
abbrev AuthMethod := Nat

/-- Errors produced by the go-git backend (the values the worker code
inspects, plus an opaque remainder). -/
inductive GitErr
  | referenceNotFound
  | remoteNotFound
  | noErrAlreadyUpToDate
  | other (msg : String)
deriving DecidableEq, Repr

/-- Errors produced by Worker.delete (the file-system sanity checks). -/
inductive DelErr
  | notADirectory (path : List String)
deriving DecidableEq, Repr

/-- The wrapped errors CloneOrPull and its helpers return; each constructor
is one fmt.Errorf wrapping site in worker.go (git e is an error returned
unwrapped, as the clone and remote-management errors are). -/
inductive SyncErr
  | git (e : GitErr)
  | unableToOpen (path : String) (e : GitErr)
  | unableToDetermineHead (e : GitErr)
  | unableToDeleteMalformed (e : DelErr)
  | unableToOpenWorktree (e : GitErr)
  | unableToSwitchBranch (branch : String) (e : GitErr)
  | unableToPull (e : GitErr)
deriving DecidableEq, Repr

/-- Worker (worker.go): the state assembled by New and the options. -/
structure Worker where
  path : String
  origin : String
  branch : ReferenceName := ""
  progress : Option Sink := none
  auth : Option AuthMethod := none
deriving DecidableEq, Repr

/-- Option (variadic functional option applied by New). -/
def WorkerOption := Worker → Worker

/-- Branch (branchopt.go): sets the branch to "refs/heads/" + name. -/
def Branch (name : String) : WorkerOption :=
  fun s => { s with branch := ("refs/heads/" ++ name : String) }

/-- Auth (authopt.go): sets the authentication method. -/
def AuthOpt (auth : AuthMethod) : WorkerOption :=
  fun w => { w with auth := some auth }

/-- Progress (progressopt.go): sets the progress output sink. -/
def Progress (p : Sink) : WorkerOption :=
  fun w => { w with progress := some p }

/-- New (worker.go): absolutizes the path (filepath.Abs depends on the
process working directory, so it is passed in as abs), stores path and
origin, and applies each option in order.  No other field is initialised:
branch stays the zero value "" when no Branch option is supplied. -/
def New (abs : String → String) (path origin : String)
    (options : List WorkerOption) : Worker :=
  options.foldl (fun s opt => opt s) { path := abs path, origin := origin }

/-- git.CloneOptions as filled in by Worker.clone. -/
structure CloneOptions where
  URL : String
  referenceName : ReferenceName
  progress : Option Sink
  auth : Option AuthMethod
deriving DecidableEq, Repr

/-- One invocation of the backend clone; ctxThreaded records whether the
context-accepting API (git.PlainCloneContext) was used. -/
structure CloneCall where
  ctxThreaded : Bool
  opts : CloneOptions
deriving DecidableEq, Repr

/-- Worker.clone calls git.PlainCloneContext(ctx, …): the caller context is
threaded, and the options carry origin, branch, progress and auth. -/
def cloneCallOf (w : Worker) : CloneCall :=
  { ctxThreaded := true
    opts := { URL := w.origin, referenceName := w.branch,
              progress := w.progress, auth := w.auth } }

/-- git.CheckoutOptions as filled in by Worker.updateBranch. -/
structure CheckoutOptions where
  Branch : ReferenceName
  Create : Bool
  Force : Bool
deriving DecidableEq, Repr

/-- git.PullOptions as filled in by Worker.CloneOrPull. -/
structure PullOptions where
  referenceName : ReferenceName
  progress : Option Sink
  auth : Option AuthMethod
  Force : Bool
deriving DecidableEq, Repr

/-- One invocation of the backend pull; ctxThreaded records whether a
context-accepting API was used (worktree.Pull is the plain variant). -/
structure PullCall where
  ctxThreaded : Bool
  opts : PullOptions
deriving DecidableEq, Repr

/-- The pull invocation CloneOrPull performs: worktree.Pull (no context
variant), with branch, progress, auth and Force = true. -/
def pullCallOf (w : Worker) : PullCall :=
  { ctxThreaded := false
    opts := { referenceName := w.branch, progress := w.progress,
              auth := w.auth, Force := true } }

/-- Result of git.PlainOpen as the worker discriminates it. -/
inductive OpenResult
  | ok
  | notExists
  | fail (e : GitErr)
deriving DecidableEq, Repr

/-- The repository's remote configuration: a map from remote name to its URL
list (go-git stores remotes in a map keyed by name). -/
abbrev RemoteMap := String → Option (List String)

/-- config.RemoteConfig as built by Worker.updateOrigin. -/
structure RemoteConfig where
  Name : String
  URLs : List String
deriving DecidableEq, Repr

/-- A mutation of the remote configuration performed by updateOrigin. -/
inductive RemoteOp
  | createRemote (cfg : RemoteConfig)
  | deleteRemote (name : String)
deriving DecidableEq, Repr

/-- repo.CreateRemote: errors when a remote of that name already exists,
otherwise records the config under its name. -/
def createRemote (m : RemoteMap) (cfg : RemoteConfig) :
    Except GitErr RemoteMap :=
  match m cfg.Name with
  | some _ => .error (.other ("remote already exists"))
  | none => .ok (fun n => if n = cfg.Name then some cfg.URLs else m n)

/-- repo.DeleteRemote: errors when no remote of that name exists, otherwise
removes it. -/
def deleteRemote (m : RemoteMap) (name : String) :
    Except GitErr RemoteMap :=
  match m name with
  | none => .error .remoteNotFound
  | some _ => .ok (fun n => if n = name then none else m n)

/-- Result of Worker.updateOrigin: the returned error (none = nil), the
remote configuration afterwards, and the mutations performed. -/
structure UpdateOriginResult where
  err : Option GitErr
  remotes : RemoteMap
  ops : List RemoteOp

/-- Worker.updateOrigin (worker.go): reconcile the remote named "origin" so
that its URL list is exactly [origin].  Not found: create it.  Found with
URL list of length 1 whose entry equals origin: return nil untouched.
Found otherwise: delete then recreate.  (Config-read failures, the switch's
default branch, are not representable in this in-memory remote map.) -/
def updateOrigin (origin : String) (m : RemoteMap) : UpdateOriginResult :=
  let cfg : RemoteConfig := { Name := "origin", URLs := [origin] }
  match m ("origin") with
  | none =>
    match createRemote m cfg with
    | .ok m2 => ⟨none, m2, [.createRemote cfg]⟩
    | .error e => ⟨some e, m, [.createRemote cfg]⟩
  | some urls =>
    if urls.length == 1 && urls.headD "" == origin then
      ⟨none, m, []⟩
    else
      match deleteRemote m ("origin") with
      | .error e => ⟨some e, m, [.deleteRemote ("origin")]⟩
      | .ok m1 =>
        match createRemote m1 cfg with
        | .ok m2 => ⟨none, m2, [.deleteRemote ("origin"), .createRemote cfg]⟩
        | .error e =>
          ⟨some e, m1, [.deleteRemote ("origin"), .createRemote cfg]⟩

/-- repo.Reference(name, false): resolves a reference from the repository's
reference store; absent references yield ErrReferenceNotFound. -/
def refLookup (refs : List ReferenceName) (name : ReferenceName) :
    Except GitErr Reference :=
  if refs.contains name then .ok ⟨name⟩ else .error .referenceNotFound

/-- Worker.updateBranch (worker.go): existingBranch is set exactly when the
reference lookup returned no error; checkout is invoked with the target
branch, Create = !existingBranch and Force = true; a checkout failure is
wrapped naming the short branch name.  The lookup result and the checkout
outcome are backend-supplied. -/
def updateBranch (branch : ReferenceName)
    (lookupRes : Except GitErr Reference)
    (checkoutRes : Option GitErr) : Option SyncErr × CheckoutOptions :=
  let existingBranch : Bool :=
    match lookupRes with
    | .ok _ => true
    | .error _ => false
  let co : CheckoutOptions :=
    { Branch := branch, Create := !existingBranch, Force := true }
  match checkoutRes with
  | some e => (some (.unableToSwitchBranch (shortName branch) e), co)
  | none => (none, co)

/-- One backend behaviour: the outcome of every backend call CloneOrPull can
make.  Per-attempt outcomes (open, clone, head, delete) are indexed by the
prepare-loop iteration; the remote configuration and local reference store
are the repository state seen after prepare; worktree, checkout and pull
outcomes are environment-driven.  A delete outcome of none means the
recovery deletion returned nil (it does so, without mutation, whenever the
metadata subpath is absent — see the delete model below). -/
structure Behaviour where
  openRes : Nat → OpenResult
  cloneRes : Nat → Option GitErr
  headRes : Nat → Except GitErr Reference
  deleteRes : Nat → Option DelErr
  remotes : RemoteMap
  worktreeRes : Option GitErr
  refs : List ReferenceName
  checkoutRes : Option GitErr
  pullRes : Option GitErr

/-- Result of Worker.openOrClone: whether a repository value was produced,
the cloned flag, the error, and the clone invocations made. -/
structure OpenOrCloneResult where
  cloned : Bool
  err : Option SyncErr
  cloneCalls : List CloneCall
deriving Repr

/-- Worker.openOrClone (worker.go): open; on ErrRepositoryNotExists set
cloned and clone (clone errors are returned unwrapped); any other open
error is wrapped with the path. -/
def openOrClone (w : Worker) (b : Behaviour) (i : Nat) : OpenOrCloneResult :=
  match b.openRes i with
  | .ok => ⟨false, none, []⟩
  | .notExists =>
    match b.cloneRes i with
    | none => ⟨true, none, [cloneCallOf w]⟩
    | some e => ⟨true, some (.git e), [cloneCallOf w]⟩
  | .fail e => ⟨false, some (.unableToOpen w.path e), []⟩

/-- The named return values of Worker.prepare (repo itself carries no
information the model needs beyond its presence), plus the clone calls and
the number of recovery deletions performed. -/
structure PrepareState where
  head : Option Reference := none
  cloned : Bool := false
  err : Option SyncErr := none
  cloneCalls : List CloneCall := []
  deleteCalls : Nat := 0

/-- The attempt bound of Worker.prepare (const attempts = 2). -/
def attempts : Nat := 2

/-- The loop body of Worker.prepare, fuel-indexed with the loop counter i
carried explicitly; fuel starts at attempts so the recursion mirrors
`for i := 0; i < attempts; i++` exactly.  Note the inner `if i < attempts`
is the comparison written in the source: inside the loop it is always true,
so on a head-resolution failure the delete always runs and its result
overwrites err (the "unable to determine repository HEAD" error is never
the value carried out of an iteration). -/
def prepareLoop (w : Worker) (b : Behaviour) :
    Nat → Nat → PrepareState → PrepareState
  | _, 0, st => st
  | i, fuel + 1, st =>
    if i < attempts then
      let o := openOrClone w b i
      let st1 : PrepareState :=
        { st with cloned := o.cloned, cloneCalls := st.cloneCalls ++ o.cloneCalls }
      match o.err with
      | some e => { st1 with err := some e }
      | none =>
        match b.headRes i with
        | .ok ref => { st1 with head := some ref, err := none }
        | .error e =>
          let st2 : PrepareState := { st1 with head := none }
          if i < attempts then
            let st3 : PrepareState :=
              { st2 with deleteCalls := st2.deleteCalls + 1 }
            match b.deleteRes i with
            | some de =>
              { st3 with err := some (.unableToDeleteMalformed de) }
            | none =>
              prepareLoop w b (i + 1) fuel { st3 with err := none }
          else
            prepareLoop w b (i + 1) fuel
              { st2 with err := some (.unableToDetermineHead e) }
    else st

/-- Worker.prepare (worker.go): run the bounded resolution loop from i = 0
with zero-valued named returns. -/
def prepare (w : Worker) (b : Behaviour) : PrepareState :=
  prepareLoop w b 0 attempts {}

/-- Outcome of one CloneOrPull invocation.  panicNilDeref is the Go runtime
nil-pointer dereference raised by head.Name() when prepare handed back a
nil head together with a nil error. -/
inductive Outcome
  | ok
  | err (e : SyncErr)
  | panicNilDeref
deriving DecidableEq, Repr

/-- Observable result of one CloneOrPull invocation: the outcome and the
backend calls performed. -/
structure RunResult where
  outcome : Outcome
  cloneCalls : List CloneCall
  deleteCalls : Nat
  remotesAfter : RemoteMap
  remoteOps : List RemoteOp
  checkoutCall : Option CheckoutOptions
  pullCall : Option PullCall

/-- Helper assembling a RunResult that never reached the remote phase. -/
def earlyResult (p : PrepareState) (b : Behaviour) (o : Outcome) : RunResult :=
  { outcome := o, cloneCalls := p.cloneCalls, deleteCalls := p.deleteCalls,
    remotesAfter := b.remotes, remoteOps := [], checkoutCall := none,
    pullCall := none }

/-- The pull switch of CloneOrPull: nil and git.NoErrAlreadyUpToDate fall
through to success; any other pull error is wrapped. -/
def pullOutcome (b : Behaviour) : Outcome :=
  match b.pullRes with
  | none => .ok
  | some .noErrAlreadyUpToDate => .ok
  | some e => .err (.unableToPull e)

/-- Worker.CloneOrPull (worker.go): prepare; return its error if any;
return nil when freshly cloned; otherwise reconcile the remote, open the
worktree, reconcile the branch when head.Name() differs from the target
(dereferencing head), and pull. -/
def Worker.CloneOrPull (w : Worker) (b : Behaviour) : RunResult :=
  let p := prepare w b
  match p.err with
  | some e => earlyResult p b (.err e)
  | none =>
    if p.cloned then
      earlyResult p b .ok
    else
      let uo := updateOrigin w.origin b.remotes
      match uo.err with
      | some e =>
        { outcome := .err (.git e), cloneCalls := p.cloneCalls,
          deleteCalls := p.deleteCalls, remotesAfter := uo.remotes,
          remoteOps := uo.ops, checkoutCall := none, pullCall := none }
      | none =>
        match b.worktreeRes with
        | some e =>
          { outcome := .err (.unableToOpenWorktree e),
            cloneCalls := p.cloneCalls, deleteCalls := p.deleteCalls,
            remotesAfter := uo.remotes, remoteOps := uo.ops,
            checkoutCall := none, pullCall := none }
        | none =>
          match p.head with
          | none =>
            { outcome := .panicNilDeref, cloneCalls := p.cloneCalls,
              deleteCalls := p.deleteCalls, remotesAfter := uo.remotes,
              remoteOps := uo.ops, checkoutCall := none, pullCall := none }
          | some hd =>
            if hd.Name ≠ w.branch then
              let ub := updateBranch w.branch
                (refLookup b.refs w.branch) b.checkoutRes
              match ub.1 with
              | some e =>
                { outcome := .err e, cloneCalls := p.cloneCalls,
                  deleteCalls := p.deleteCalls, remotesAfter := uo.remotes,
                  remoteOps := uo.ops, checkoutCall := some ub.2,
                  pullCall := none }
              | none =>
                { outcome := pullOutcome b, cloneCalls := p.cloneCalls,
                  deleteCalls := p.deleteCalls, remotesAfter := uo.remotes,
                  remoteOps := uo.ops, checkoutCall := some ub.2,
                  pullCall := some (pullCallOf w) }
            else
              { outcome := pullOutcome b, cloneCalls := p.cloneCalls,
                deleteCalls := p.deleteCalls, remotesAfter := uo.remotes,
                remoteOps := uo.ops, checkoutCall := none,
                pullCall := some (pullCallOf w) }

/-- Package-level CloneOrPull (func.go): New then Worker.CloneOrPull. -/
def CloneOrPullFunc (abs : String → String) (path origin : String)
    (options : List WorkerOption) (b : Behaviour) : RunResult :=
  Worker.CloneOrPull (New abs path origin options) b

/-- Node kinds of the file-system model used by Worker.delete. -/
inductive FileKind
  | file
  | dir
deriving DecidableEq, Repr

/-- A file system: a list of (path, kind) entries, paths being component
lists (filepath.Join path ".git" appends the component ".git"). -/
abbrev FS := List (List String × FileKind)

/-- os.Stat in the model: look the path up; none plays os.IsNotExist.
(Stat failures other than non-existence are not representable here.) -/
def statFS (fs : FS) (p : List String) : Option FileKind :=
  (List.find? (fun e => e.1 == p) fs).map (fun e => e.2)

/-- os.RemoveAll in the model: drop every entry at or below the path. -/
def removeAll (fs : FS) (p : List String) : FS :=
  List.filter (fun e => !(List.isPrefixOf p e.1)) fs

/-- Worker.delete (worker.go): stat the repository path (absent: nil;
non-directory: error); stat path/.git (absent: nil; non-directory: error);
otherwise recursively remove path/.git only.  Returns the error (none =
nil) and the file system afterwards. -/
def deleteFS (fs : FS) (path : List String) : Option DelErr × FS :=
  match statFS fs path with
  | none => (none, fs)
  | some root =>
    if root ≠ FileKind.dir then
      (some (.notADirectory path), fs)
    else
      let gitPath := path ++ [(".git" : String)]
      match statFS fs gitPath with
      | none => (none, fs)
      | some gitDir =>
        if gitDir ≠ FileKind.dir then
          (some (.notADirectory gitPath), fs)
        else
          (none, removeAll fs gitPath)

/-- Synchronizer: the earlier form of the worker state (the Synchronizer
revision of the core, still the one func.go's Pull constructs), built by
the four-argument New of that revision. -/
structure Synchronizer where
  path : String
  origin : String
  branch : ReferenceName
  progress : Option Sink
deriving DecidableEq, Repr

/-- The four-argument New of the Synchronizer revision: absolutize the
path and normalize the branch to "refs/heads/" + branch; the progress
argument is stored as given. -/
def NewSynchronizer (abs : String → String) (path origin branch : String)
    (progress : Option Sink) : Synchronizer :=
  { path := abs path, origin := origin,
    branch := ("refs/heads/" ++ branch : String), progress := progress }

/-- The Synchronizer that the package-level Pull (func.go) constructs and
then invokes: New(path, origin, branch, os.Stdout) — the caller-supplied
progress argument is discarded in favour of os.Stdout. -/
def pullConstructed (abs : String → String) (path origin branch : String)
    (progress : Option Sink) : Synchronizer :=
  NewSynchronizer abs path origin branch (some Sink.stdout)

/-- A concrete origin URL used by the concrete scenarios below. -/
def originURL : String := "https://example.com/repo.git"

/-- A concrete worker: New(path, origin, Branch("master")). -/
def wAll : Worker := New id ("repo") originURL [Branch ("master")]

/-- A benign backend behaviour: opening succeeds, the head is the master
branch, the remote is already reconciled, and every later phase succeeds. -/
def baseBehaviour : Behaviour :=
  { openRes := fun _ => OpenResult.ok
    cloneRes := fun _ => none
    headRes := fun _ => Except.ok ⟨"refs/heads/master"⟩
    deleteRes := fun _ => none
    remotes := fun n => if n = "origin" then some [originURL] else none
    worktreeRes := none
    refs := ["refs/heads/master"]
    checkoutRes := none
    pullRes := none }

/-- A mirror whose head is permanently unresolvable: the first open
succeeds, the head never resolves, the recovery deletion succeeds, and the
re-clone after the deletion succeeds (the clone of an empty remote is a
concrete realization). -/
def bC1 : Behaviour :=
  { baseBehaviour with
      openRes := fun i => if i = 0 then OpenResult.ok else OpenResult.notExists
      headRes := fun _ => Except.error GitErr.referenceNotFound }

/-- A mirror that always opens but whose head never resolves and whose
metadata subpath is absent, so the recovery deletion is a successful no-op
(an empty bare repository at the path is a concrete realization). -/
def bC2 : Behaviour :=
  { baseBehaviour with
      headRes := fun _ => Except.error GitErr.referenceNotFound }

/-- Behaviour for the context-threading scenario: the benign behaviour, in
which the pull phase is reached. -/
def bC3 : Behaviour := baseBehaviour

/-- A remote configuration whose origin remote carries a different URL. -/
def mC5 : RemoteMap :=
  fun n => if n = "origin" then some ["https://old.example.com/repo.git"] else none

/-- A worker targeting the dev branch (not the current head). -/
def wC6 : Worker := New id ("repo") originURL [Branch ("dev")]

/-- Behaviour in which the checkout of the target branch fails. -/
def bC6 : Behaviour :=
  { baseBehaviour with checkoutRes := some (GitErr.other ("disk full")) }

/-- Behaviour in which the pull reports the already-up-to-date sentinel. -/
def bC7 : Behaviour :=
  { baseBehaviour with pullRes := some GitErr.noErrAlreadyUpToDate }

/-- A concrete file system: a working directory with metadata and an
ordinary file. -/
def fsC8 : FS :=
  [(["repo"], FileKind.dir),
   (["repo", ".git"], FileKind.dir),
   (["repo", ".git", "objects"], FileKind.dir),
   (["repo", "data.txt"], FileKind.file)]

/-- The worker's no-op guard is exactly "URL list = [origin]". -/
theorem urls_guard_iff (urls : List String) (origin : String) :
    (urls.length == 1 && urls.headD "" == origin) = true ↔ urls = [origin] := by
  cases urls with
  | nil => simp
  | cons u t =>
    cases t with
    | nil => simp [List.headD]
    | cons v t' => simp

/-- Every CloneOrPull run either performs no pull, or performs exactly the
pull invocation pullCallOf and finishes with the pull switch's outcome. -/
theorem cloneOrPull_pull_cases (w : Worker) (b : Behaviour) :
    (Worker.CloneOrPull w b).pullCall = none ∨
    ((Worker.CloneOrPull w b).pullCall = some (pullCallOf w) ∧
     (Worker.CloneOrPull w b).outcome = pullOutcome b) := by
  simp only [Worker.CloneOrPull]
  repeat' split
  all_goals first
    | exact Or.inl rfl
    | exact Or.inr ⟨rfl, rfl⟩

/-- The clone calls of a run are exactly the clone calls of prepare. -/
theorem cloneOrPull_cloneCalls (w : Worker) (b : Behaviour) :
    (Worker.CloneOrPull w b).cloneCalls = (prepare w b).cloneCalls := by
  simp only [Worker.CloneOrPull]
  repeat' split
  all_goals rfl

/-- Every clone call produced by openOrClone threads the context. -/
theorem openOrClone_cloneCalls_threaded (w : Worker) (b : Behaviour)
    (i : Nat) : ∀ c ∈ (openOrClone w b i).cloneCalls, c.ctxThreaded = true := by
  intro c hc
  unfold openOrClone at hc
  split at hc
  · simp at hc
  · split at hc
    · simp at hc
      subst hc
      rfl
    · simp at hc
      subst hc
      rfl
  · simp at hc

/-- Every clone call accumulated by the prepare loop threads the context. -/
theorem prepareLoop_cloneCalls_threaded (w : Worker) (b : Behaviour) :
    ∀ fuel i st, (∀ c ∈ PrepareState.cloneCalls st, c.ctxThreaded = true) →
      ∀ c ∈ PrepareState.cloneCalls (prepareLoop w b i fuel st),
        c.ctxThreaded = true := by
  intro fuel
  induction fuel with
  | zero =>
    intro i st h
    simpa [prepareLoop] using h
  | succ n ih =>
    intro i st h
    have happ : ∀ c ∈ PrepareState.cloneCalls st ++
        OpenOrCloneResult.cloneCalls (openOrClone w b i), c.ctxThreaded = true := by
      intro c hc
      rcases List.mem_append.mp hc with h1 | h2
      · exact h c h1
      · exact openOrClone_cloneCalls_threaded w b i c h2
    simp only [prepareLoop]
    split
    · repeat' split
      all_goals first
        | simpa using happ
        | exact ih (i + 1) _ (by simpa using happ)
    · exact h

/-- Every clone call prepare makes threads the context. -/
theorem prepare_cloneCalls_threaded (w : Worker) (b : Behaviour) :
    ∀ c ∈ PrepareState.cloneCalls (prepare w b), c.ctxThreaded = true := by
  apply prepareLoop_cloneCalls_threaded
  intro c hc
  simp [PrepareState.cloneCalls] at hc

/-- C1: on the mirror whose head is permanently unresolvable (bC1: first
open succeeds, head never resolves, the recovery deletion and the re-clone
succeed), prepare runs its 2 resolution cycles and 2 deletions, yet exits
with err = nil — the inner `i < attempts` guard is always true inside the
loop, so the final deletion's nil result overwrites the wrapped
malformed-repository error — and CloneOrPull returns success instead of
the wrapped malformed-repository error the claim requires. -/
theorem c1_head_error_swallowed :
    (Worker.CloneOrPull wAll bC1).outcome = Outcome.ok ∧
    PrepareState.err (prepare wAll bC1) = none ∧
    PrepareState.deleteCalls (prepare wAll bC1) = 2 :=
  ⟨rfl, rfl, rfl⟩

/-- C2: on a mirror that always opens but whose head never resolves and
whose metadata subpath is absent (bC2; an empty bare repository realizes
it), prepare exits its loop with head = nil, cloned = false and err = nil,
and CloneOrPull then dereferences the nil head at head.Name(): the run
panics instead of returning nil or a wrapped error. -/
theorem c2_nil_head_panic :
    (Worker.CloneOrPull wAll bC2).outcome = Outcome.panicNilDeref ∧
    PrepareState.err (prepare wAll bC2) = none ∧
    PrepareState.head (prepare wAll bC2) = none ∧
    PrepareState.cloned (prepare wAll bC2) = false :=
  ⟨rfl, rfl, rfl, rfl⟩

/-- C3, counterexample: it is not the case that every pull invocation made
by CloneOrPull threads the caller's cancellation context — the benign run
(wAll, bC3) reaches the pull phase and its pull call does not thread the
context. -/
theorem c3_pull_without_ctx_counterexample :
    ¬ (∀ (w : Worker) (b : Behaviour) (pc : PullCall),
        (Worker.CloneOrPull w b).pullCall = some pc → pc.ctxThreaded = true) := by
  intro h
  have h1 := h wAll bC3 (pullCallOf wAll) rfl
  simp [pullCallOf] at h1

/-- C3, amended: every pull invocation CloneOrPull makes uses the plain
(non-context) pull API — the caller's cancellation context is not threaded
through it — while every clone invocation does thread the context. -/
theorem c3_pull_not_ctx_threaded (w : Worker) (b : Behaviour) :
    (∀ pc, (Worker.CloneOrPull w b).pullCall = some pc →
      pc.ctxThreaded = false ∧
      pc.opts = { referenceName := Worker.branch w,
                  progress := Worker.progress w,
                  auth := Worker.auth w, Force := true }) ∧
    (∀ c ∈ (Worker.CloneOrPull w b).cloneCalls, c.ctxThreaded = true) := by
  constructor
  · intro pc hp
    rcases cloneOrPull_pull_cases w b with h | ⟨h1, _⟩
    · rw [h] at hp
      cases hp
    · rw [h1] at hp
      cases hp
      exact ⟨rfl, rfl⟩
  · intro c hc
    rw [cloneOrPull_cloneCalls] at hc
    exact prepare_cloneCalls_threaded w b c hc

/-- C3, witness: the benign run makes a pull call, and by the amended
theorem that call does not thread the context. -/
theorem c3_pull_not_ctx_threaded_witness :
    (Worker.CloneOrPull wAll bC3).pullCall = some (pullCallOf wAll) ∧
    PullCall.ctxThreaded (pullCallOf wAll) = false :=
  ⟨rfl, ((c3_pull_not_ctx_threaded wAll bC3).1 (pullCallOf wAll) rfl).1⟩

/-- C4, counterexample: a worker built with no branch option carries the
empty reference name, not the master branch reference the claim requires. -/
theorem c4_default_branch_counterexample :
    Worker.branch (New id ("p") ("o") []) = "" ∧
    Worker.branch (New id ("p") ("o") []) ≠ ("refs/heads/master" : String) := by
  refine ⟨rfl, ?_⟩
  decide

/-- C4, amended: when no branch option is supplied the stored branch is the
empty reference name (no "master" default is applied), and every supplied
short branch name is normalized to the fully-qualified local-branch
reference "refs/heads/" + name. -/
theorem c4_branch_normalization (abs : String → String)
    (path origin name : String) (w : Worker) :
    Worker.branch (New abs path origin []) = "" ∧
    Worker.branch (New abs path origin [Branch name])
      = ("refs/heads/" ++ name : String) ∧
    Worker.branch (Branch name w) = ("refs/heads/" ++ name : String) :=
  ⟨rfl, rfl, rfl⟩

/-- C9: the package-level CloneOrPull is definitionally construct-then-
invoke with the caller's parameters, but the package-level Pull constructs
its Synchronizer with os.Stdout as the progress sink, substituting the
caller-supplied sink: at a caller sink distinct from stdout the
constructed state differs from New applied to the same parameters. -/
theorem c9_pull_substitutes_stdout :
    (∀ (abs : String → String) (path origin : String)
        (options : List WorkerOption) (b : Behaviour),
      CloneOrPullFunc abs path origin options b =
        Worker.CloneOrPull (New abs path origin options) b) ∧
    Synchronizer.progress
        (pullConstructed id ("p") ("o") ("b") (some (Sink.handle 1)))
      = some Sink.stdout ∧
    pullConstructed id ("p") ("o") ("b") (some (Sink.handle 1)) ≠
      NewSynchronizer id ("p") ("o") ("b") (some (Sink.handle 1)) := by
  refine ⟨fun _ _ _ _ _ => rfl, rfl, ?_⟩
  decide

/-- C5: after updateOrigin returns nil the remote named origin carries
exactly the URL list [origin]; when the existing remote already carries
exactly [origin] the operation returns nil with no mutation at all; and in
every other found case it deletes and recreates the remote; a missing
remote is created. -/
theorem c5_updateOrigin_reconciles (origin : String) (m : RemoteMap) :
    ((updateOrigin origin m).err = none →
      UpdateOriginResult.remotes (updateOrigin origin m) ("origin")
        = some [origin]) ∧
    (m ("origin") = some [origin] →
      (updateOrigin origin m).err = none ∧
      UpdateOriginResult.remotes (updateOrigin origin m) = m ∧
      UpdateOriginResult.ops (updateOrigin origin m) = []) ∧
    (∀ urls, m ("origin") = some urls → urls ≠ [origin] →
      (updateOrigin origin m).err = none ∧
      UpdateOriginResult.remotes (updateOrigin origin m) ("origin")
        = some [origin] ∧
      UpdateOriginResult.ops (updateOrigin origin m) =
        [RemoteOp.deleteRemote ("origin"),
         RemoteOp.createRemote ⟨"origin", [origin]⟩]) ∧
    (m ("origin") = none →
      (updateOrigin origin m).err = none ∧
      UpdateOriginResult.remotes (updateOrigin origin m) ("origin")
        = some [origin]) := by
  rcases hm : m ("origin") with _ | urls
  · refine ⟨fun _ => ?_, fun h => by simp at h, fun urls2 h2 _ => by simp at h2,
      fun _ => ⟨?_, ?_⟩⟩ <;>
      simp [updateOrigin, hm, createRemote]
  · by_cases hu : urls = [origin]
    · subst hu
      have hB : updateOrigin origin m = ⟨none, m, []⟩ := by
        simp only [updateOrigin, hm]
        simp
      rw [hB]
      refine ⟨fun _ => hm, fun _ => ⟨rfl, rfl, rfl⟩, ?_, fun h => by simp at h⟩
      intro urls2 h2 hne
      exact absurd (by injection h2 with h3; exact h3.symm) hne
    · have hnp : ¬(urls.length = 1 ∧ urls.head?.getD "" = origin) := by
        intro hx
        apply hu
        rcases urls with _ | ⟨u, t⟩
        · simp at hx
        · rcases t with _ | ⟨v, t2⟩
          · simp only [List.head?_cons, Option.getD_some] at hx
            rw [hx.2]
          · simp at hx
      refine ⟨fun _ => ?_, fun h => ?_, fun urls2 h2 _ => ⟨?_, ?_, ?_⟩,
        fun h => by simp at h⟩
      · simp [updateOrigin, hm, hnp, deleteRemote, createRemote]
      · exact absurd (Option.some.inj h) hu
      · simp [updateOrigin, hm, hnp, deleteRemote, createRemote]
      · simp [updateOrigin, hm, hnp, deleteRemote, createRemote]
      · simp [updateOrigin, hm, hnp, deleteRemote, createRemote]

/-- updateBranch applied to the store-derived reference lookup: the
checkout options carry Create = true exactly when the branch reference is
absent from the store, and the error is the wrapped checkout failure. -/
theorem updateBranch_refLookup (branch : ReferenceName)
    (refs : List ReferenceName) (cr : Option GitErr) :
    updateBranch branch (refLookup refs branch) cr =
      (Option.map (fun e => SyncErr.unableToSwitchBranch (shortName branch) e) cr,
       { Branch := branch, Create := !(List.contains refs branch),
         Force := true }) := by
  by_cases hmem : branch ∈ refs <;> cases cr <;>
    simp [updateBranch, refLookup, hmem]

/-- C6: in every run that reaches branch reconciliation (prepare succeeded
without cloning and produced a head, the remote reconciled, the worktree
opened): when the head equals the target branch no checkout is performed;
otherwise a forced checkout of the target branch is performed with
creation requested exactly when the local branch reference does not
already exist, and a checkout failure yields the wrapped fatal error
naming the (short) branch name. -/
theorem c6_branch_reconciliation (w : Worker) (b : Behaviour) (hd : Reference)
    (hErr : PrepareState.err (prepare w b) = none)
    (hCl : PrepareState.cloned (prepare w b) = false)
    (hHd : PrepareState.head (prepare w b) = some hd)
    (hUo : (updateOrigin (Worker.origin w) (Behaviour.remotes b)).err = none)
    (hWt : Behaviour.worktreeRes b = none) :
    (Reference.Name hd = Worker.branch w →
      (Worker.CloneOrPull w b).checkoutCall = none) ∧
    (Reference.Name hd ≠ Worker.branch w →
      (Worker.CloneOrPull w b).checkoutCall =
        some { Branch := Worker.branch w,
               Create := !(List.contains (Behaviour.refs b) (Worker.branch w)),
               Force := true } ∧
      ∀ e, Behaviour.checkoutRes b = some e →
        (Worker.CloneOrPull w b).outcome =
          Outcome.err (SyncErr.unableToSwitchBranch
            (shortName (Worker.branch w)) e)) := by
  constructor
  · intro hEq
    simp only [Worker.CloneOrPull, hErr, hCl, hHd, hUo, hWt]
    simp [hEq]
  · intro hNe
    constructor
    · rcases hcr : Behaviour.checkoutRes b with _ | e <;>
        · simp only [Worker.CloneOrPull, hErr, hCl, hHd, hUo, hWt, hcr,
            updateBranch_refLookup]
          simp [hNe]
    · intro e hce
      simp only [Worker.CloneOrPull, hErr, hCl, hHd, hUo, hWt, hce,
        updateBranch_refLookup]
      simp [hNe]

/-- C5, witness: reconciling against a remote carrying a stale URL
succeeds, leaves the origin remote at exactly the new URL, and performs
the delete-then-create pair. -/
theorem c5_updateOrigin_reconciles_witness :
    (updateOrigin originURL mC5).err = none ∧
    UpdateOriginResult.remotes (updateOrigin originURL mC5) ("origin")
      = some [originURL] ∧
    UpdateOriginResult.ops (updateOrigin originURL mC5) =
      [RemoteOp.deleteRemote ("origin"),
       RemoteOp.createRemote ⟨"origin", [originURL]⟩] := by
  have h := (c5_updateOrigin_reconciles originURL mC5).2.2.1
    (["https://old.example.com/repo.git"]) (by rfl) (by decide)
  exact ⟨h.1, h.2.1, h.2.2⟩

/-- C6, witness: a run on the dev-branch worker whose checkout fails
reaches branch reconciliation, requests a forced creating checkout of
refs/heads/dev, and fails with the wrapped error naming the branch. -/
theorem c6_branch_reconciliation_witness :
    (Worker.CloneOrPull wC6 bC6).checkoutCall =
      some { Branch := ("refs/heads/dev" : String), Create := true,
             Force := true } ∧
    (Worker.CloneOrPull wC6 bC6).outcome =
      Outcome.err (SyncErr.unableToSwitchBranch ("dev")
        (GitErr.other ("disk full"))) := by
  have h := (c6_branch_reconciliation wC6 bC6 ⟨"refs/heads/master"⟩
    rfl rfl rfl rfl rfl).2 (by decide)
  refine ⟨?_, ?_⟩
  · rw [h.1]
    decide
  · rw [h.2 (GitErr.other ("disk full")) rfl]
    decide

/-- C7: in every run that reaches the pull phase, the run succeeds exactly
when the pull result is nil or the already-up-to-date sentinel, and every
other pull error makes the run fail with the wrapped pull error. -/
theorem c7_pull_result_handling (w : Worker) (b : Behaviour) (pc : PullCall)
    (hp : (Worker.CloneOrPull w b).pullCall = some pc) :
    ((Worker.CloneOrPull w b).outcome = Outcome.ok ↔
      Behaviour.pullRes b = none ∨
      Behaviour.pullRes b = some GitErr.noErrAlreadyUpToDate) ∧
    (∀ e, Behaviour.pullRes b = some e → e ≠ GitErr.noErrAlreadyUpToDate →
      (Worker.CloneOrPull w b).outcome =
        Outcome.err (SyncErr.unableToPull e)) := by
  rcases cloneOrPull_pull_cases w b with h | ⟨h1, h2⟩
  · rw [h] at hp
    cases hp
  · rw [h2]
    constructor
    · rcases hr : Behaviour.pullRes b with _ | e
      · simp [pullOutcome, hr]
      · cases e <;> simp [pullOutcome, hr]
    · intro e he hne
      cases e <;> simp_all [pullOutcome]

/-- C7, witness: a run whose pull reports the already-up-to-date sentinel
reaches the pull phase and succeeds. -/
theorem c7_pull_result_handling_witness :
    (Worker.CloneOrPull wAll bC7).outcome = Outcome.ok :=
  ((c7_pull_result_handling wAll bC7 (pullCallOf wAll) rfl).1).mpr (Or.inr rfl)

/-- C8: the recovery deletion is a no-op success when the path or the
metadata subpath does not exist, a descriptive error without mutation when
the path or the metadata subpath is not a directory, and otherwise removes
exactly the entries at or below the metadata subpath, preserving the
parent directory and its ordinary files. -/
theorem c8_delete_safety (fs : FS) (path : List String) :
    (statFS fs path = none → deleteFS fs path = (none, fs)) ∧
    (statFS fs path = some FileKind.file →
      deleteFS fs path = (some (DelErr.notADirectory path), fs)) ∧
    (statFS fs path = some FileKind.dir →
      statFS fs (path ++ [".git"]) = none → deleteFS fs path = (none, fs)) ∧
    (statFS fs path = some FileKind.dir →
      statFS fs (path ++ [".git"]) = some FileKind.file →
      deleteFS fs path =
        (some (DelErr.notADirectory (path ++ [".git"])), fs)) ∧
    (statFS fs path = some FileKind.dir →
      statFS fs (path ++ [".git"]) = some FileKind.dir →
      (deleteFS fs path).1 = none ∧
      ∀ e, e ∈ (deleteFS fs path).2 ↔
        e ∈ fs ∧ ¬ (path ++ [".git"]) <+: e.1) := by
  refine ⟨?_, ?_, ?_, ?_, ?_⟩
  · intro h
    simp [deleteFS, h]
  · intro h
    simp [deleteFS, h]
  · intro h hg
    simp [deleteFS, h, hg]
  · intro h hg
    simp [deleteFS, h, hg]
  · intro h hg
    constructor
    · simp [deleteFS, h, hg]
    · intro e
      simp [deleteFS, h, hg, removeAll, List.mem_filter]
      intro _
      rw [← List.isPrefixOf_iff_prefix, Bool.not_eq_true]

/-- C8, witness: deleting at a working directory with metadata succeeds,
keeps the ordinary file, and removes the metadata directory. -/
theorem c8_delete_safety_witness :
    (deleteFS fsC8 (["repo"])).1 = none ∧
    ((["repo", "data.txt"], FileKind.file) ∈ (deleteFS fsC8 (["repo"])).2) ∧
    ¬ ((["repo", ".git"], FileKind.dir) ∈ (deleteFS fsC8 (["repo"])).2) := by
  have h := (c8_delete_safety fsC8 (["repo"])).2.2.2.2 (by rfl) (by rfl)
  refine ⟨h.1, ?_, ?_⟩
  · exact (h.2 _).mpr ⟨by decide, by decide⟩
  · intro hmem
    exact ((h.2 _).mp hmem).2 (by decide)

/-- C10: updateBranch requests branch creation exactly when the preceding
reference lookup returned an error — any error at all, with no distinction
between a not-found result and other lookup failures. -/
theorem c10_create_iff_lookup_error (branch : ReferenceName)
    (lookupRes : Except GitErr Reference) (checkoutRes : Option GitErr) :
    CheckoutOptions.Create (updateBranch branch lookupRes checkoutRes).2 = true ↔
      ∃ e, lookupRes = Except.error e := by
  cases lookupRes with
  | error e => cases checkoutRes <;> simp [updateBranch]
  | ok r => cases checkoutRes <;> simp [updateBranch]

end Gitsync
